import Mathlib

/-!
# Verification of the sbm boot-monitor protocol driver (src/sbm.c)

A shallow embedding of the protocol core of `sbm.c`: the wire packet with its
selective byte-order transform, the five protocol operations
(`imx_sync`, `imx_set_register`, `imx_set_baud`, `imx_setup_system`,
`imx_download`, `imx_run`) and the command sequencer of `main`.

The serial channel is modelled as an oracle: a list of `ReadResult`s, one per
4-byte `read` the program performs (`short` models a read returning fewer than
4 bytes within the timeout; an exhausted list also reads short).  Every
operation returns its result, the trace of channel events it performed
(packet writes, raw payload writes, 4-byte read attempts, and local baud-rate
reconfigurations), and the unconsumed rest of the oracle.
-/

namespace Sbm

/-- Opcode `IMX_SYNC` (sbm.c line 79). -/
def IMX_SYNC : Nat := 0x0505

/-- Opcode `IMX_SREG` (sbm.c line 80). -/
def IMX_SREG : Nat := 0x0202

/-- Opcode `IMX_DWNL` (sbm.c line 81). -/
def IMX_DWNL : Nat := 0x0404

/-- `CHUNK_SIZE` (sbm.c line 65). -/
def CHUNK_SIZE : Nat := 4096

/-- `DEFAULT_HIGHSPEED` (sbm.c line 63). -/
def DEFAULT_HIGHSPEED : Nat := 921600

/-- `DEFAULT_TERMBAUD` (sbm.c line 64). -/
def DEFAULT_TERMBAUD : Nat := 230400

/-- The `SWAPDWORD` macro of sbm.c line 86 (little-endian host build, the
default: `IS_BIG_ENDIAN` is commented out), on 32-bit words embedded in `Nat`:
`((((d)&0xff)<<24)|(((d)&0xff00)<<8)|(((d)&0xff0000)>>8)|(((d)&0xff000000)>>24))`.
The masks read only the low 32 bits, exactly as the C truncation to
`unsigned int` does. -/
def SWAPDWORD (d : Nat) : Nat :=
  ((d &&& 0xff) <<< 24) ||| ((d &&& 0xff00) <<< 8) |||
    ((d &&& 0xff0000) >>> 8) ||| ((d &&& 0xff000000) >>> 24)

/-- `struct imx_packet` (sbm.c lines 89-96): a packed record of widths
16/32/8/32/32/8 bits.  Fields hold the values the C code stores into the
struct (for the three 32-bit fields the code stores the already
`SWAPDWORD`-transformed value at every call site). -/
structure Packet where
  header : Nat
  address : Nat
  type : Nat
  length : Nat
  data : Nat
  end_ : Nat
  deriving DecidableEq, Repr

/-- Outcome of one 4-byte `read(fd,&x,4)`: either a full 32-bit word arrived,
or fewer than 4 bytes did before the timeout (`short`). -/
inductive ReadResult where
  | word (v : Nat)
  | short
  deriving DecidableEq, Repr

/-- The channel oracle: the successive outcomes of the program's 4-byte reads. -/
abbrev Responses := List ReadResult

/-- One observable channel action of the program. -/
inductive Event where
  /-- a 16-byte packet written with `write(fd,&pckt,sizeof(pckt))` -/
  | packet (p : Packet)
  /-- raw payload bytes written with `write(fd,data,to_write)` -/
  | raw (payload : List Nat)
  /-- one 4-byte read attempt together with its outcome -/
  | readWord (r : ReadResult)
  /-- local termios reconfiguration `set_baud(fd,rate)` (sbm.c line 102) -/
  | set_baud (rate : Nat)
  deriving DecidableEq, Repr

/-- Result of a protocol operation, following the error vocabulary the code
realises in its `printf` diagnostics and `-1` returns. -/
inductive Result where
  | ok
  | timeout
  | protocolMismatch (observed : Nat)
  | protocolMismatchPair (b c : Nat)
  | invalidWidth
  | noEntryAddress
  | sourceUnavailable
  deriving DecidableEq, Repr

/-- Consume one 4-byte read from the oracle; an exhausted oracle reads short. -/
def chanRead : Responses → ReadResult × Responses
  | [] => (.short, [])
  | r :: rs => (r, rs)

/-- The packet sent by `imx_sync` (sbm.c lines 141-144): `memset` to zero,
then `header = IMX_SYNC`. -/
def syncPacket : Packet := ⟨IMX_SYNC, 0, 0, 0, 0, 0⟩

/-- `imx_sync` (sbm.c lines 136-165): write the sync packet, read one 4-byte
word; success iff it equals `0xf0f0f0f0`. -/
def imx_sync (rs : Responses) : Result × List Event × Responses :=
  match chanRead rs with
  | (.word v, rs1) =>
    if v = 0xf0f0f0f0 then
      (.ok, [.packet syncPacket, .readWord (.word v)], rs1)
    else
      (.protocolMismatch v, [.packet syncPacket, .readWord (.word v)], rs1)
  | (.short, rs1) => (.timeout, [.packet syncPacket, .readWord .short], rs1)

/-- `imx_set_register` (sbm.c lines 167-220).  The width check
`if(len != 8 && len != 16 && len != 32)` returns before any `write`, so an
invalid width performs no channel I/O.  Otherwise the SET-REGISTER packet is
written and two 4-byte words are read (the C short-circuit
`read(..) != 4 || read(..) != 4` skips the second read when the first is
short).  Success requires `0x56787856` then `0x128a8a12`; with `ignore` set,
a short read or a value mismatch is downgraded to success. -/
def imx_set_register (addr len value : Nat) (ignore : Bool) (rs : Responses) :
    Result × List Event × Responses :=
  if len ≠ 8 ∧ len ≠ 16 ∧ len ≠ 32 then
    (.invalidWidth, [], rs)
  else
    let pckt : Packet := ⟨IMX_SREG, SWAPDWORD addr, len, 0, SWAPDWORD value, 0⟩
    match chanRead rs with
    | (.short, rs1) =>
      (if ignore then .ok else .timeout, [.packet pckt, .readWord .short], rs1)
    | (.word b, rs1) =>
      match chanRead rs1 with
      | (.short, rs2) =>
        (if ignore then .ok else .timeout,
         [.packet pckt, .readWord (.word b), .readWord .short], rs2)
      | (.word c, rs2) =>
        if b = 0x56787856 ∧ c = 0x128a8a12 then
          (.ok, [.packet pckt, .readWord (.word b), .readWord (.word c)], rs2)
        else
          (if ignore then .ok else .protocolMismatchPair b c,
           [.packet pckt, .readWord (.word b), .readWord (.word c)], rs2)

/-- `imx_set_baud` (sbm.c lines 222-232): divisor register write
(`(baud/100)-1`, in C unsigned 32-bit arithmetic, hence the `% 2^32`
wrap-around of the subtraction), then FIFO register write with mismatch
ignored, then the local `set_baud(fd,baud)`.  The results of both register
writes are discarded and the function always returns 0, exactly as the C. -/
def imx_set_baud (baud : Nat) (rs : Responses) : Result × List Event × Responses :=
  let out1 := imx_set_register 0x1000A0A4 32 ((baud / 100 + 0xffffffff) % 2 ^ 32) false rs
  let out2 := imx_set_register 0x1000A0A8 32 (10000 - 1) true out1.2.2
  (.ok, out1.2.1 ++ out2.2.1 ++ [.set_baud baud], out2.2.2)

/-- The `imx_set_register` calls of `imx_setup_system` (sbm.c lines 242-260),
in program order: `(address, width, value, ignore)` per call; the
`for(i=0;i<8;i++)` loop contributes its eight identical calls. -/
def setupCalls : List (Nat × Nat × Nat × Bool) :=
  [(0x10000000, 32, 0x00040304, false),
   (0x10020000, 32, 0x00000000, false),
   (0x10000004, 32, 0xfffbfcfb, false),
   (0x10020004, 32, 0xffffffff, false),
   (0xdf001008, 32, 0x00002000, false),
   (0xdf00100c, 32, 0x11118501, false),
   (0x10015520, 32, 0x00000000, false),
   (0x10015538, 32, 0x00000000, false),
   (0x1003f300, 32, 0x00123456, false),
   (0xdf000000, 32, 0x92129399, false),
   (0xc0200000, 32, 0x00000000, false),
   (0xdf000000, 32, 0xa2120300, false)] ++
  List.replicate 8 (0xc0000000, 32, 0x00000000, false) ++
  [(0xdf000000, 32, 0xb2120300, false),
   (0xc0119800, 32, 0x00000000, false),
   (0xdf000000, 32, 0x8212f339, false)]

/-- `imx_setup_system` (sbm.c lines 234-265): replay `setupCalls` in order,
discarding every call's result (the C ignores all return values), and
return 0 unconditionally. -/
def imx_setup_system (rs : Responses) : Result × List Event × Responses :=
  let out := setupCalls.foldl
    (fun (acc : List Event × Responses) call =>
      let o := imx_set_register call.1 call.2.1 call.2.2.1 call.2.2.2 acc.2
      (acc.1 ++ o.2.1, o.2.2))
    ([], rs)
  (.ok, out.1, out.2)

/-- The DOWNLOAD block-header packet (sbm.c lines 285-288, 298-299):
`header = IMX_DWNL`, swapped address and length, `type = data = end = 0`. -/
def dwnlPacket (a l : Nat) : Packet := ⟨IMX_DWNL, SWAPDWORD a, 0, SWAPDWORD l, 0, 0⟩

/-- The `for(i=0; i<size;)` loop of `imx_download` (sbm.c lines 292-337):
per block, send the header packet for `to_write = min(CHUNK_SIZE, size-i)`
bytes at `addr+i`, read one 4-byte word, require `0x56787856`, and only then
write the block's raw bytes; no trailing read after the payload. -/
def downloadLoop (bytes : List Nat) (addr size i : Nat) (rs : Responses) :
    Result × List Event × Responses :=
  if _h : i < size then
    let to_write := if size - i > CHUNK_SIZE then CHUNK_SIZE else size - i
    let pckt := dwnlPacket (addr + i) to_write
    match chanRead rs with
    | (.short, rs1) => (.timeout, [.packet pckt, .readWord .short], rs1)
    | (.word v, rs1) =>
      if v = 0x56787856 then
        let payload := (bytes.drop i).take to_write
        let out := downloadLoop bytes addr size (i + to_write) rs1
        (out.1, .packet pckt :: .readWord (.word v) :: .raw payload :: out.2.1, out.2.2)
      else
        (.protocolMismatch v, [.packet pckt, .readWord (.word v)], rs1)
  else (.ok, [], rs)
termination_by size - i
decreasing_by simp only [CHUNK_SIZE]; split <;> omega

/-- `imx_download` (sbm.c lines 267-341).  The binary image is `none` when
`fopen` fails, otherwise its byte content; `size` is the file length
(`fseek`/`ftell`). -/
def imx_download (file : Option (List Nat)) (addr : Nat) (rs : Responses) :
    Result × List Event × Responses :=
  match file with
  | none => (.sourceUnavailable, [], rs)
  | some bytes => downloadLoop bytes addr bytes.length 0 rs

/-- First packet of `imx_run` (sbm.c lines 349-354): DOWNLOAD opcode,
swapped address, `end = 0xaa`, all other fields zero. -/
def runPacket1 (addr : Nat) : Packet := ⟨IMX_DWNL, SWAPDWORD addr, 0, 0, 0, 0xaa⟩

/-- Second packet of `imx_run` (sbm.c lines 368-373): SYNC opcode, all other
fields zero. -/
def runPacket2 : Packet := ⟨IMX_SYNC, 0, 0, 0, 0, 0⟩

/-- `imx_run` (sbm.c lines 343-402): write the `end=0xaa` DOWNLOAD packet,
read one word, require `0x56787856`; only then write the SYNC-opcode packet
and read one more word, succeeding iff it is `0x08888888` or `0x88888888`. -/
def imx_run (addr : Nat) (rs : Responses) : Result × List Event × Responses :=
  match chanRead rs with
  | (.short, rs1) => (.timeout, [.packet (runPacket1 addr), .readWord .short], rs1)
  | (.word b, rs1) =>
    if b = 0x56787856 then
      match chanRead rs1 with
      | (.short, rs2) =>
        (.timeout,
         [.packet (runPacket1 addr), .readWord (.word b),
          .packet runPacket2, .readWord .short], rs2)
      | (.word d, rs2) =>
        if d = 0x08888888 ∨ d = 0x88888888 then
          (.ok,
           [.packet (runPacket1 addr), .readWord (.word b),
            .packet runPacket2, .readWord (.word d)], rs2)
        else
          (.protocolMismatch d,
           [.packet (runPacket1 addr), .readWord (.word b),
            .packet runPacket2, .readWord (.word d)], rs2)
    else
      (.protocolMismatch b, [.packet (runPacket1 addr), .readWord (.word b)], rs1)

/-- Sequencer state of `main` (sbm.c line 496-498): `int synced = 0` and
`unsigned int entry = 0` (0 doubles as "no remembered entry address"). -/
structure SeqState where
  synced : Bool
  entry : Nat
  deriving DecidableEq, Repr

/-- Initial sequencer state of `main`. -/
def initState : SeqState := ⟨false, 0⟩

/-- One command of the `main` command loop (terminal mode is out of scope of
the protocol engine). -/
inductive Cmd where
  | sync
  | set (addr size value : Nat)
  | download (file : Option (List Nat)) (addr : Nat)
  | run (addr : Option Nat)
  | setup
  | baud (rate : Option Nat)
  deriving DecidableEq, Repr

/-- The `if(!synced){ if(imx_sync(port)) break; synced = 1; }` prologue that
`main` places in front of the `set`, `download`, `setup` and `baud`
branches (e.g. sbm.c lines 531-539). -/
def autosync (st : SeqState) (rs : Responses) :
    SeqState × Result × List Event × Responses :=
  if st.synced then (st, .ok, [], rs)
  else
    match imx_sync rs with
    | (.ok, t, rs1) => ({ st with synced := true }, .ok, t, rs1)
    | (r, t, rs1) => (st, r, t, rs1)

/-- One iteration of the `while(i<argc)` command loop of `main`
(sbm.c lines 519-730), for one parsed command: the returned `Result` is
`.ok` when the loop `continue`s and the failure kind when it `break`s.
The `run` branch's auto-sync is commented out in the source
(lines 661-669) and is therefore absent here; `run` resolves address 0
(explicit or absent) to `entry` and fails with `noEntryAddress` when that
is still 0 (lines 671-688). -/
def runCmd (st : SeqState) (c : Cmd) (rs : Responses) :
    SeqState × Result × List Event × Responses :=
  match c with
  | .sync =>
    match imx_sync rs with
    | (.ok, t, rs1) => ({ st with synced := true }, .ok, t, rs1)
    | (r, t, rs1) => (st, r, t, rs1)
  | .set addr size value =>
    match autosync st rs with
    | (st1, .ok, t1, rs1) =>
      let o := imx_set_register addr size value false rs1
      (st1, o.1, t1 ++ o.2.1, o.2.2)
    | out => out
  | .download file addr =>
    match autosync st rs with
    | (st1, .ok, t1, rs1) =>
      match imx_download file addr rs1 with
      | (.ok, t2, rs2) => ({ st1 with entry := addr }, .ok, t1 ++ t2, rs2)
      | (r, t2, rs2) => (st1, r, t1 ++ t2, rs2)
    | out => out
  | .setup =>
    match autosync st rs with
    | (st1, .ok, t1, rs1) =>
      let o := imx_setup_system rs1
      (st1, o.1, t1 ++ o.2.1, o.2.2)
    | out => out
  | .baud rate =>
    match autosync st rs with
    | (st1, .ok, t1, rs1) =>
      let b := match rate with
        | none => DEFAULT_HIGHSPEED
        | some 0 => DEFAULT_HIGHSPEED
        | some b => b
      let o := imx_set_baud b rs1
      (st1, o.1, t1 ++ o.2.1, o.2.2)
    | out => out
  | .run a =>
    let addr := match a with
      | none => st.entry
      | some 0 => st.entry
      | some x => x
    if addr = 0 then (st, .noEntryAddress, [], rs)
    else
      let o := imx_run addr rs
      (st, o.1, o.2.1, o.2.2)

/-- The whole command loop: commands execute strictly in order and the first
failing command aborts the remaining queue. -/
def runCmds (st : SeqState) (cs : List Cmd) (rs : Responses) :
    SeqState × Result × List Event × Responses :=
  match cs with
  | [] => (st, .ok, [], rs)
  | c :: cs' =>
    match runCmd st c rs with
    | (st1, .ok, t, rs1) =>
      match runCmds st1 cs' rs1 with
      | (st2, r, t', rs2) => (st2, r, t ++ t', rs2)
    | out => out

/-- WireCodec `encode`: the per-field transform the C applies when it fills
a `struct imx_packet` for transmission — `SWAPDWORD` on exactly the three
32-bit fields `address`, `length`, `data`, identity on `header`, `type`,
`end` (every call site of sbm.c stores `SWAPDWORD(...)` into precisely those
three fields, cf. lines 175, 186, 298-299, 350). -/
def encodePacket (p : Packet) : Packet :=
  { p with
    address := SWAPDWORD p.address
    length := SWAPDWORD p.length
    data := SWAPDWORD p.data }

/-- The 16 bytes of a packed `struct imx_packet` as laid out in memory on the
little-endian host build and handed to `write(fd,&pckt,sizeof(pckt))`:
2-byte `header`, 4-byte `address`, 1-byte `type`, 4-byte `length`, 4-byte
`data`, 1-byte `end`, no padding (`__attribute__((__packed__))`). -/
def packetBytes (p : Packet) : List Nat :=
  [p.header % 256, p.header / 256 % 256] ++
  [p.address % 256, p.address / 256 % 256,
   p.address / 65536 % 256, p.address / 16777216 % 256] ++
  [p.type % 256] ++
  [p.length % 256, p.length / 256 % 256,
   p.length / 65536 % 256, p.length / 16777216 % 256] ++
  [p.data % 256, p.data / 256 % 256,
   p.data / 65536 % 256, p.data / 16777216 % 256] ++
  [p.end_ % 256]

/-- Spec-side description of one download block at cumulative offset `off`
of a source of size `s`: header packet, its 4-byte acknowledgment read, then
the raw payload — the closed form the ChunkedTransfer contract describes,
to be compared with the trace `downloadLoop` actually produces. -/
def specBlockOff (bytes : List Nat) (addr s off : Nat) : List Event :=
  [.packet (dwnlPacket (addr + off) (min 4096 (s - off))),
   .readWord (.word 0x56787856),
   .raw ((bytes.drop off).take (min 4096 (s - off)))]

section Theorems

/-- Masking with a block of `m` one-bits shifted up by `k` extracts the byte
field. -/
theorem and_mask_shift (d k m : Nat) :
    d &&& ((2 ^ m - 1) <<< k) = ((d >>> k) % 2 ^ m) <<< k := by
  apply Nat.eq_of_testBit_eq
  intro i
  simp only [Nat.testBit_and, Nat.testBit_shiftLeft, Nat.testBit_shiftRight,
    Nat.testBit_mod_two_pow, Nat.testBit_two_pow_sub_one, ge_iff_le]
  by_cases hk : k ≤ i
  · have hik : k + (i - k) = i := by omega
    simp [hk, hik, Bool.and_comm, Bool.and_left_comm]
  · simp [hk]

/-- `SWAPDWORD` in plain byte arithmetic: it permutes the four low-order
bytes of its argument in reverse order (and discards bits 32 and above). -/
theorem SWAPDWORD_eq (d : Nat) :
    SWAPDWORD d =
      d % 256 * 16777216 + d / 256 % 256 * 65536 +
        d / 65536 % 256 * 256 + d / 16777216 % 256 := by
  have hA : (d &&& 0xff) <<< 24 = 2 ^ 24 * (d % 2 ^ 8) := by
    have h : (0xff : Nat) = 2 ^ 8 - 1 := by norm_num
    rw [h, Nat.and_pow_two_sub_one_eq_mod, Nat.shiftLeft_eq]
    ring
  have hB : (d &&& 0xff00) <<< 8 = 2 ^ 16 * (d / 2 ^ 8 % 2 ^ 8) := by
    have h : (0xff00 : Nat) = (2 ^ 8 - 1) <<< 8 := by
      simp [Nat.shiftLeft_eq]
    rw [h, and_mask_shift, Nat.shiftLeft_eq, Nat.shiftLeft_eq,
      Nat.shiftRight_eq_div_pow]
    ring
  have hC : (d &&& 0xff0000) >>> 8 = 2 ^ 8 * (d / 2 ^ 16 % 2 ^ 8) := by
    have h : (0xff0000 : Nat) = (2 ^ 8 - 1) <<< 16 := by
      simp [Nat.shiftLeft_eq]
    rw [h, and_mask_shift, Nat.shiftLeft_eq, Nat.shiftRight_eq_div_pow,
      Nat.shiftRight_eq_div_pow]
    omega
  have hD : (d &&& 0xff000000) >>> 24 = d / 2 ^ 24 % 2 ^ 8 := by
    have h : (0xff000000 : Nat) = (2 ^ 8 - 1) <<< 24 := by
      simp [Nat.shiftLeft_eq]
    rw [h, and_mask_shift, Nat.shiftLeft_eq, Nat.shiftRight_eq_div_pow,
      Nat.shiftRight_eq_div_pow]
    omega
  have hcd : d / 2 ^ 24 % 2 ^ 8 < 2 ^ 8 := Nat.mod_lt _ (by norm_num)
  have hbcd : 2 ^ 8 * (d / 2 ^ 16 % 2 ^ 8) + d / 2 ^ 24 % 2 ^ 8 < 2 ^ 16 := by
    have h1 : d / 2 ^ 16 % 2 ^ 8 < 2 ^ 8 := Nat.mod_lt _ (by norm_num)
    omega
  have habcd :
      2 ^ 16 * (d / 2 ^ 8 % 2 ^ 8) +
        (2 ^ 8 * (d / 2 ^ 16 % 2 ^ 8) + d / 2 ^ 24 % 2 ^ 8) < 2 ^ 24 := by
    have h1 : d / 2 ^ 8 % 2 ^ 8 < 2 ^ 8 := Nat.mod_lt _ (by norm_num)
    omega
  rw [SWAPDWORD, hA, hB, hC, hD, Nat.or_assoc, Nat.or_assoc,
    ← Nat.mul_add_lt_is_or hcd, ← Nat.mul_add_lt_is_or hbcd,
    ← Nat.mul_add_lt_is_or habcd]
  norm_num
  ring

/-- Recomposing four bytes and extracting them again is the identity. -/
theorem bytes_recompose (a b c e : Nat)
    (ha : a < 256) (hb : b < 256) (hc : c < 256) (he : e < 256) :
    (a * 16777216 + b * 65536 + c * 256 + e) % 256 = e ∧
    (a * 16777216 + b * 65536 + c * 256 + e) / 256 % 256 = c ∧
    (a * 16777216 + b * 65536 + c * 256 + e) / 65536 % 256 = b ∧
    (a * 16777216 + b * 65536 + c * 256 + e) / 16777216 % 256 = a := by
  refine ⟨by omega, by omega, by omega, by omega⟩

/-- `SWAPDWORD` on an explicit four-byte composition reverses the bytes. -/
theorem SWAPDWORD_bytes (a b c e : Nat)
    (ha : a < 256) (hb : b < 256) (hc : c < 256) (he : e < 256) :
    SWAPDWORD (a * 16777216 + b * 65536 + c * 256 + e) =
      e * 16777216 + c * 65536 + b * 256 + a := by
  rw [SWAPDWORD_eq]
  obtain ⟨h1, h2, h3, h4⟩ := bytes_recompose a b c e ha hb hc he
  rw [h1, h2, h3, h4]

/-- On 32-bit values the byte swap is an involution. -/
theorem SWAPDWORD_involution (d : Nat) (hd : d < 2 ^ 32) :
    SWAPDWORD (SWAPDWORD d) = d := by
  rw [SWAPDWORD_eq d,
    SWAPDWORD_bytes _ _ _ _ (by omega) (by omega) (by omega) (by omega)]
  omega

/-- The download loop on a response stream whose first
`(s - i + 4095) / 4096` entries are header acknowledgments: it succeeds and
its trace is exactly one `specBlockOff` group per remaining block, at
offsets `i`, `i + 4096`, `i + 8192`, …, consuming exactly the
acknowledgments. -/
theorem downloadLoop_acks (bytes : List Nat) (addr s : Nat) :
    ∀ n i rest, n = (s - i + 4095) / 4096 →
      downloadLoop bytes addr s i (List.replicate n (.word 0x56787856) ++ rest) =
        (.ok,
         (List.range n).flatMap (fun k => specBlockOff bytes addr s (i + 4096 * k)),
         rest) := by
  intro n
  induction n with
  | zero =>
    intro i rest hn
    have hs : ¬ i < s := by omega
    rw [downloadLoop]
    simp [hs]
  | succ m ih =>
    intro i rest hn
    have hs : i < s := by
      by_contra hc
      have h0 : s - i = 0 := by omega
      omega
    rw [downloadLoop, dif_pos hs]
    simp only [CHUNK_SIZE, List.replicate_succ, List.cons_append, chanRead]
    by_cases hbig : s - i > 4096
    · rw [if_pos hbig]
      have hrec := ih (i + 4096) rest (by omega)
      simp only [hrec]
      rw [List.range_succ_eq_map, List.flatMap_cons, List.flatMap_map]
      have hmin : min 4096 (s - i) = 4096 := by omega
      have harg : ∀ k, i + 4096 * (k + 1) = i + 4096 + 4096 * k := fun k => by ring
      simp [specBlockOff, hmin, harg, Nat.succ_eq_add_one]
    · rw [if_neg hbig]
      have hm : m = 0 := by omega
      subst hm
      have hrec := ih (i + (s - i)) rest (by omega)
      simp only [if_true, hrec]
      have hmin : min 4096 (s - i) = s - i := by omega
      rw [show List.range 1 = [0] from rfl, List.flatMap_cons, List.flatMap_nil]
      simp [specBlockOff, hmin]

/-- C4: for a source of `S > 0` bytes, the download transfer sends exactly
`ceil(S/4096)` blocks in order of strictly increasing offset `4096*k`; block
`k`'s header packet carries address `destination + offset` and length
`min(4096, S - offset)`, its raw payload is written only after the 4-byte
acknowledgment `0x56787856` has been read, with no trailing per-block
acknowledgment after the payload; the final block ends exactly at `S`. -/
theorem C4_download_chunking (bytes : List Nat) (addr : Nat) (rest : Responses)
    (hS : 0 < bytes.length) :
    imx_download (some bytes) addr
        (List.replicate ((bytes.length + 4095) / 4096) (.word 0x56787856) ++ rest) =
      (.ok,
       (List.range ((bytes.length + 4095) / 4096)).flatMap
         (fun k => specBlockOff bytes addr bytes.length (4096 * k)),
       rest) ∧
    0 < (bytes.length + 4095) / 4096 ∧
    4096 * ((bytes.length + 4095) / 4096 - 1) +
        min 4096 (bytes.length - 4096 * ((bytes.length + 4095) / 4096 - 1)) =
      bytes.length := by
  refine ⟨?_, by omega, by omega⟩
  have h := downloadLoop_acks bytes addr bytes.length ((bytes.length + 4095) / 4096)
    0 rest (by omega)
  simp only [imx_download]
  rw [h]
  simp

/-- Witness for C4 at a concrete three-byte source (one block). -/
theorem C4_witness :
    imx_download (some [1, 2, 3]) 16
        (List.replicate (([1, 2, 3].length + 4095) / 4096) (.word 0x56787856) ++ []) =
      (.ok,
       (List.range (([1, 2, 3].length + 4095) / 4096)).flatMap
         (fun k => specBlockOff [1, 2, 3] 16 [1, 2, 3].length (4096 * k)),
       []) :=
  (C4_download_chunking [1, 2, 3] 16 [] (by decide)).1

/-- C5: `imx_sync` sends a SYNC packet with all non-header fields zero and
reads exactly one 4-byte word; it succeeds iff that word is `0xf0f0f0f0`,
returns `protocolMismatch` carrying the observed value on any other full
word, and `timeout` on a short read. -/
theorem C5_sync_contract :
    (∀ v rest, imx_sync (.word v :: rest) =
      ((if v = 0xf0f0f0f0 then .ok else .protocolMismatch v),
       [.packet syncPacket, .readWord (.word v)], rest)) ∧
    (∀ rest, imx_sync (.short :: rest) =
      (.timeout, [.packet syncPacket, .readWord .short], rest)) ∧
    imx_sync [] = (.timeout, [.packet syncPacket, .readWord .short], []) ∧
    syncPacket = ⟨0x0505, 0, 0, 0, 0, 0⟩ := by
  refine ⟨fun v rest => ?_, fun rest => rfl, rfl, rfl⟩
  by_cases h : v = 0xf0f0f0f0 <;> simp [imx_sync, chanRead, h]

/-- C6: `imx_set_register` with a width outside {8,16,32} fails with
`invalidWidth` and performs no channel I/O at all; with a valid width and the
response words `0x56787856`, `0x128a8a12` it succeeds. -/
theorem C6_set_register_width :
    (∀ addr w value ig rs, w ≠ 8 → w ≠ 16 → w ≠ 32 →
      imx_set_register addr w value ig rs = (.invalidWidth, [], rs)) ∧
    (∀ addr w value ig rest, w = 8 ∨ w = 16 ∨ w = 32 →
      imx_set_register addr w value ig
          (.word 0x56787856 :: .word 0x128a8a12 :: rest) =
        (.ok,
         [.packet ⟨IMX_SREG, SWAPDWORD addr, w, 0, SWAPDWORD value, 0⟩,
          .readWord (.word 0x56787856), .readWord (.word 0x128a8a12)],
         rest)) := by
  constructor
  · intro addr w value ig rs h8 h16 h32
    simp [imx_set_register, h8, h16, h32]
  · rintro addr w value ig rest (rfl | rfl | rfl) <;>
      simp [imx_set_register, chanRead, IMX_SREG]

/-- Witness for C6 at concrete inputs: width 7 is rejected with no I/O and
width 32 succeeds on the magic response pair. -/
theorem C6_witness :
    imx_set_register 0x10 7 5 false [.word 1] = (.invalidWidth, [], [.word 1]) ∧
    (imx_set_register 0x1000A0A4 32 9599 false
        [.word 0x56787856, .word 0x128a8a12]).1 = .ok := by
  constructor
  · exact C6_set_register_width.1 0x10 7 5 false [.word 1]
      (by decide) (by decide) (by decide)
  · rw [C6_set_register_width.2 0x1000A0A4 32 9599 false []
      (Or.inr (Or.inr rfl))]

/-- C7: `imx_run` is a two-phase exchange: the `end=0xaa` DOWNLOAD packet,
one word that must be `0x56787856`, then (only on that success) the
SYNC-opcode packet and one word that must be `0x08888888` or `0x88888888`;
short reads give `timeout`, other full words `protocolMismatch`. -/
theorem C7_run_two_phase (addr : Nat) :
    (∀ rest, imx_run addr (.short :: rest) =
      (.timeout, [.packet (runPacket1 addr), .readWord .short], rest)) ∧
    (∀ v rest, v ≠ 0x56787856 → imx_run addr (.word v :: rest) =
      (.protocolMismatch v,
       [.packet (runPacket1 addr), .readWord (.word v)], rest)) ∧
    (∀ rest, imx_run addr (.word 0x56787856 :: .short :: rest) =
      (.timeout,
       [.packet (runPacket1 addr), .readWord (.word 0x56787856),
        .packet runPacket2, .readWord .short], rest)) ∧
    (∀ v rest, imx_run addr (.word 0x56787856 :: .word v :: rest) =
      ((if v = 0x08888888 ∨ v = 0x88888888 then .ok else .protocolMismatch v),
       [.packet (runPacket1 addr), .readWord (.word 0x56787856),
        .packet runPacket2, .readWord (.word v)], rest)) ∧
    runPacket1 addr = ⟨IMX_DWNL, SWAPDWORD addr, 0, 0, 0, 0xaa⟩ ∧
    runPacket2 = ⟨IMX_SYNC, 0, 0, 0, 0, 0⟩ := by
  refine ⟨fun rest => rfl, fun v rest hv => ?_, fun rest => ?_,
    fun v rest => ?_, rfl, rfl⟩
  · simp [imx_run, chanRead, hv]
  · simp [imx_run, chanRead]
  · by_cases h : v = 0x08888888 ∨ v = 0x88888888 <;>
      simp [imx_run, chanRead, h]

/-- Witness for C7 at concrete inputs: the full successful exchange and a
first-phase mismatch. -/
theorem C7_witness :
    imx_run 0x1000 [.word 0x56787856, .word 0x88888888] =
      (.ok,
       [.packet (runPacket1 0x1000), .readWord (.word 0x56787856),
        .packet runPacket2, .readWord (.word 0x88888888)], []) ∧
    imx_run 0x1000 [.word 5] =
      (.protocolMismatch 5, [.packet (runPacket1 0x1000), .readWord (.word 5)], []) := by
  constructor
  · rw [(C7_run_two_phase 0x1000).2.2.2.1 0x88888888 []]
    decide
  · exact (C7_run_two_phase 0x1000).2.1 5 [] (by decide)

/-- C9: WireCodec encoding swaps exactly the three 32-bit fields
`address`/`length`/`data`, leaves `header`/`type`/`end` byte-identical,
the swap is its own inverse on 32-bit values, and the encoded record's byte
length is the constant 16 whatever the field values. -/
theorem C9_codec_roundtrip (p : Packet)
    (ha : p.address < 2 ^ 32) (hl : p.length < 2 ^ 32) (hd : p.data < 2 ^ 32) :
    (encodePacket p).header = p.header ∧
    (encodePacket p).type = p.type ∧
    (encodePacket p).end_ = p.end_ ∧
    (encodePacket p).address = SWAPDWORD p.address ∧
    (encodePacket p).length = SWAPDWORD p.length ∧
    (encodePacket p).data = SWAPDWORD p.data ∧
    SWAPDWORD (encodePacket p).address = p.address ∧
    SWAPDWORD (encodePacket p).length = p.length ∧
    SWAPDWORD (encodePacket p).data = p.data ∧
    (∀ q : Packet, (packetBytes q).length = 16) := by
  refine ⟨rfl, rfl, rfl, rfl, rfl, rfl, ?_, ?_, ?_, fun q => rfl⟩
  · exact SWAPDWORD_involution p.address ha
  · exact SWAPDWORD_involution p.length hl
  · exact SWAPDWORD_involution p.data hd

/-- Witness for C9 at a concrete packet. -/
theorem C9_witness :
    SWAPDWORD (encodePacket ⟨0x0404, 0xC0000000, 0, 5, 7, 0xaa⟩).address =
        0xC0000000 ∧
    (encodePacket ⟨0x0404, 0xC0000000, 0, 5, 7, 0xaa⟩).header = 0x0404 ∧
    (packetBytes (encodePacket ⟨0x0404, 0xC0000000, 0, 5, 7, 0xaa⟩)).length = 16 := by
  have h := C9_codec_roundtrip ⟨0x0404, 0xC0000000, 0, 5, 7, 0xaa⟩
    (by norm_num) (by norm_num) (by norm_num)
  exact ⟨h.2.2.2.2.2.2.1, h.1, h.2.2.2.2.2.2.2.2.2 _⟩

/-- `imx_set_register` never performs a local baud-rate reconfiguration. -/
theorem imx_set_register_no_set_baud (addr w value : Nat) (ig : Bool)
    (rs : Responses) (r : Nat) :
    Event.set_baud r ∉ (imx_set_register addr w value ig rs).2.1 := by
  unfold imx_set_register
  split
  · simp
  · split
    · simp
    · split <;> split <;> simp

/-- C1 counterexample: with an empty response stream the divisor-register
write performed by `imx_set_baud 921600` fails with `timeout` (mismatch not
ignored), yet `imx_set_baud` still reconfigures the local channel's baud
rate (`set_baud` occurs in its trace) and even reports success. -/
theorem C1_counterexample :
    (imx_set_register 0x1000A0A4 32 ((921600 / 100 + 0xffffffff) % 2 ^ 32)
        false []).1 = .timeout ∧
    (imx_set_baud 921600 []).1 = .ok ∧
    Event.set_baud 921600 ∈ (imx_set_baud 921600 []).2.1 := by
  refine ⟨by decide, rfl, by decide⟩

/-- C1 amended: `imx_set_baud` performs the divisor-register exchange and
the FIFO-register exchange, discards their results, and then reconfigures
the local baud rate unconditionally — the `set_baud` event always occurs,
exactly once, as the very last event (hence strictly after both register
exchanges), whether or not the divisor write succeeded, and the operation
always reports success. -/
theorem C1_amended_unconditional_reconfigure (baud : Nat) (rs : Responses) :
    (imx_set_baud baud rs).1 = .ok ∧
    ∃ t, (imx_set_baud baud rs).2.1 = t ++ [.set_baud baud] ∧
      ∀ r, Event.set_baud r ∉ t := by
  refine ⟨rfl, ?_⟩
  refine ⟨(imx_set_register 0x1000A0A4 32 ((baud / 100 + 0xffffffff) % 2 ^ 32)
        false rs).2.1 ++
      (imx_set_register 0x1000A0A8 32 (10000 - 1) true
        (imx_set_register 0x1000A0A4 32 ((baud / 100 + 0xffffffff) % 2 ^ 32)
          false rs).2.2).2.1,
    by simp [imx_set_baud], ?_⟩
  intro r
  simp only [List.mem_append, not_or]
  exact ⟨imx_set_register_no_set_baud _ _ _ _ _ r,
    imx_set_register_no_set_baud _ _ _ _ _ r⟩

/-- C2 counterexample: not every `imx_set_register` call replayed by
`imx_setup_system` carries `ignore = true`; in fact the very first table
entry (and every other) carries `false`. -/
theorem C2_counterexample : ¬ (∀ c ∈ setupCalls, c.2.2.2 = true) := by
  decide

/-- C2 amended: every `imx_set_register` call issued while replaying the
setup table is made with `ignore = false`, but each call's result is
discarded, so the setup sequence reports success for every response
stream — timeouts and mismatches cannot abort it. -/
theorem C2_amended_setup_ignores_results :
    (∀ c ∈ setupCalls, c.2.2.2 = false) ∧
    (∀ rs, (imx_setup_system rs).1 = .ok) := by
  exact ⟨by decide, fun rs => rfl⟩

/-- C3 counterexample: the single-command sequence `run 0x1000`, started
unsynced, completes its whole wire exchange successfully while the session
stays unsynced — its first wire event is the run DOWNLOAD packet, not a
sync exchange, refuting "the run exchange never executes in the Unsynced
state". -/
theorem C3_counterexample :
    (runCmds initState [.run (some 0x1000)]
        [.word 0x56787856, .word 0x88888888]).2.1 = .ok ∧
    (runCmds initState [.run (some 0x1000)]
        [.word 0x56787856, .word 0x88888888]).1.synced = false ∧
    (runCmds initState [.run (some 0x1000)]
        [.word 0x56787856, .word 0x88888888]).2.2.1.head? =
      some (.packet (runPacket1 0x1000)) := by
  refine ⟨by decide, by decide, by decide⟩

/-- C3 amended: the sequencer performs no implicit sync for `run` (its
auto-sync block is commented out in the source): a `run` command with a
non-zero resolved address executes the run wire exchange directly, from any
state, leaving the sequencer state (in particular `synced`) unchanged. -/
theorem C3_amended_run_no_autosync (st : SeqState) (a : Nat) (rs : Responses)
    (ha : a ≠ 0) :
    runCmd st (.run (some a)) rs =
      (st, (imx_run a rs).1, (imx_run a rs).2.1, (imx_run a rs).2.2) := by
  obtain ⟨n, rfl⟩ : ∃ n, a = n + 1 := ⟨a - 1, by omega⟩
  rfl

/-- Witness for the amended C3 at a concrete input. -/
theorem C3_witness :
    (0x1000 : Nat) ≠ 0 ∧
    runCmd initState (.run (some 0x1000)) [] =
      (initState, (imx_run 0x1000 []).1, (imx_run 0x1000 []).2.1,
       (imx_run 0x1000 []).2.2) :=
  ⟨by decide, C3_amended_run_no_autosync initState 0x1000 [] (by decide)⟩

/-- `autosync` never changes the remembered entry address. -/
theorem autosync_entry (st : SeqState) (rs : Responses) :
    (autosync st rs).1.entry = st.entry := by
  unfold autosync
  split
  · rfl
  · split <;> rfl

/-- The `download` branch of `runCmd`, written as a function applied to the
`autosync` outcome (definitional restatement used to drive case analysis). -/
theorem runCmd_download_eq (st : SeqState) (f : Option (List Nat)) (A : Nat)
    (rs : Responses) :
    runCmd st (.download f A) rs =
      (fun o : SeqState × Result × List Event × Responses =>
        match o with
        | (st1, .ok, t1, rs1) =>
          (match imx_download f A rs1 with
           | (.ok, t2, rs2) => ({ st1 with entry := A }, Result.ok, t1 ++ t2, rs2)
           | (r, t2, rs2) => (st1, r, t1 ++ t2, rs2))
        | out => out) (autosync st rs) := rfl

/-- A successful `download` command leaves the sequencer with `entry = A`. -/
theorem download_entry_of_ok (st : SeqState) (f : Option (List Nat)) (A : Nat)
    (rs : Responses) (h : (runCmd st (.download f A) rs).2.1 = .ok) :
    (runCmd st (.download f A) rs).1.entry = A := by
  rw [runCmd_download_eq] at h ⊢
  rcases hA : autosync st rs with ⟨st1, r1, t1, rs1⟩
  cases r1
  case ok =>
    rcases hD : imx_download f A rs1 with ⟨rd, td, rsd⟩
    cases rd <;> simp_all
  all_goals simp_all

/-- A failed `download` command leaves the remembered entry unchanged. -/
theorem download_entry_of_fail (st : SeqState) (f : Option (List Nat)) (A : Nat)
    (rs : Responses) (h : (runCmd st (.download f A) rs).2.1 ≠ .ok) :
    (runCmd st (.download f A) rs).1.entry = st.entry := by
  rw [runCmd_download_eq] at h ⊢
  rcases hA : autosync st rs with ⟨st1, r1, t1, rs1⟩
  have he : st1.entry = st.entry := by
    have h2 := autosync_entry st rs
    rw [hA] at h2
    exact h2
  cases r1
  case ok =>
    rcases hD : imx_download f A rs1 with ⟨rd, td, rsd⟩
    cases rd <;> simp_all
  all_goals simp_all

/-- Concrete evaluation: a one-byte download against a single header ack
completes successfully with one block. -/
theorem downloadLoop_single :
    downloadLoop [1] 0xC0000000 1 0 [.word 0x56787856] =
      (.ok,
       [.packet (dwnlPacket (0xC0000000 + 0) 1), .readWord (.word 0x56787856),
        .raw [1]], []) := by
  rw [downloadLoop]
  simp only [chanRead, CHUNK_SIZE]
  norm_num
  rw [downloadLoop]
  simp

/-- C8: `run` with the sentinel address 0 (explicit or absent) and no
remembered entry fails with `noEntryAddress` and performs no wire exchange;
a successful download to `A` sets the remembered entry to `A`; and whenever
the remembered entry is `A`, `run` with no address or with the sentinel 0
behaves identically to `run A`. -/
theorem C8_run_sentinel :
    (∀ st rs, st.entry = 0 →
      runCmd st (.run none) rs = (st, .noEntryAddress, [], rs) ∧
      runCmd st (.run (some 0)) rs = (st, .noEntryAddress, [], rs)) ∧
    (∀ st f A rs, (runCmd st (.download f A) rs).2.1 = .ok →
      (runCmd st (.download f A) rs).1.entry = A) ∧
    (∀ st A rs, st.entry = A →
      runCmd st (.run none) rs = runCmd st (.run (some 0)) rs ∧
      runCmd st (.run none) rs = runCmd st (.run (some A)) rs) := by
  refine ⟨?_, ?_, ?_⟩
  · intro st rs h
    obtain ⟨sy, e⟩ := st
    have h' : e = 0 := h
    subst h'
    exact ⟨rfl, rfl⟩
  · intro st f A rs h
    exact download_entry_of_ok st f A rs h
  · intro st A rs h
    subst h
    obtain ⟨sy, e⟩ := st
    refine ⟨rfl, ?_⟩
    cases e
    · rfl
    · rfl

/-- Witness for C8 at concrete inputs. -/
theorem C8_witness :
    runCmd initState (.run none) [] = (initState, .noEntryAddress, [], []) ∧
    (runCmd ⟨true, 0⟩ (.download (some [1]) 0xC0000000)
        [.word 0x56787856]).1.entry = 0xC0000000 ∧
    runCmd ⟨true, 0xC0000000⟩ (.run none) [] =
      runCmd ⟨true, 0xC0000000⟩ (.run (some 0xC0000000)) [] :=
  ⟨(C8_run_sentinel.1 initState [] rfl).1,
   C8_run_sentinel.2.1 ⟨true, 0⟩ (some [1]) 0xC0000000 [.word 0x56787856]
     (by simp [runCmd_download_eq, autosync, imx_download, downloadLoop_single]),
   (C8_run_sentinel.2.2 ⟨true, 0xC0000000⟩ 0xC0000000 [] rfl).2⟩

/-- C10: the remembered entry address is updated to the destination exactly
when the whole download succeeded; on any failure (source unavailable,
header-ack timeout, or ack mismatch — all the non-`ok` outcomes) it is left
unchanged. -/
theorem C10_entry_only_on_success (st : SeqState) (f : Option (List Nat))
    (A : Nat) (rs : Responses) :
    (runCmd st (.download f A) rs).1.entry =
      if (runCmd st (.download f A) rs).2.1 = .ok then A else st.entry := by
  by_cases h : (runCmd st (.download f A) rs).2.1 = .ok
  · rw [if_pos h]
    exact download_entry_of_ok st f A rs h
  · rw [if_neg h]
    exact download_entry_of_fail st f A rs h

end Theorems

end Sbm
